import Mathlib

/- Shallow embedding of the local materialization and streaming I/O subsystem
   of cloudpathlib. The repository snapshot contains only documentation for
   this subsystem (README.md, HISTORY.md, docs/streaming); the Python modules
   implementing it are absent, so every definition below is modelled from the
   specification's words (see the individual doc comments). Bytes are modelled
   as lists of naturals; backend object keys and local paths as naturals. -/

namespace Cloudpathlib

/-- A byte string. -/
abbrev Bytes := List Nat

/-- Modelled from the spec: the ObjectStoreBackend primitive
`get_range(key, offset, length) -> bytes`, applied to the bytes of the remote
object it addresses. Returns the bytes of the object starting at `offset`,
at most `length` of them (fewer near the end of the object). -/
def get_range (data : Bytes) (offset length : Nat) : Bytes :=
  (data.drop offset).take length

/-- Modelled from the spec: the ObjectStoreBackend primitive
`download_whole(key, dest_path)`, viewed as the byte sequence it delivers:
the complete content of the remote object. -/
def download_whole (data : Bytes) : Bytes := data

/-- Modelled from the spec: the read-path session state of StreamingBufferedIO
(spec section 4.3 and the `CloudBufferedIO` documentation): the remote object's
bytes, the configured read-ahead buffer size, the logical position, and the
current buffer window (its starting offset in the object and its content). -/
structure StreamingReader where
  data : Bytes
  bufferSize : Nat
  pos : Nat
  bufStart : Nat
  buf : Bytes

/-- Modelled from the spec: a `read(n)` request on the StreamingBufferedIO
read path. If the position lies inside the current buffer window, the
trailing remainder of the buffer is served without a network call; otherwise
one `get_range` call is issued at the current position, covering at least the
requested bytes and sized up to the configured buffer, and it replaces the
buffer. A `get_range` returning fewer bytes than requested signals EOF and
subsequent reads return empty results without error. -/
def StreamingReader.read (s : StreamingReader) (n : Nat) : Bytes × StreamingReader :=
  if s.bufStart ≤ s.pos ∧ s.pos < s.bufStart + s.buf.length then
    let out := (s.buf.drop (s.pos - s.bufStart)).take n
    (out, { s with pos := s.pos + out.length })
  else
    let fetched := get_range s.data s.pos (max n s.bufferSize)
    let out := fetched.take n
    (out, { s with buf := fetched, bufStart := s.pos, pos := s.pos + out.length })

/-- A freshly opened streaming read session: position 0, empty buffer. -/
def StreamingReader.mk0 (data : Bytes) (B : Nat) : StreamingReader :=
  ⟨data, B, 0, 0, []⟩

/-- Reading the stream to EOF in `B`-sized chunks, concatenating the results;
the loop stops at the first empty read (EOF). `fuel` bounds the number of
iterations. -/
def readChunks (B : Nat) : Nat → StreamingReader → Bytes
  | 0, _ => []
  | fuel + 1, s =>
    let out := (s.read B).fst
    if out = [] then [] else out ++ readChunks B fuel (s.read B).snd

/-- The buffer really is a window of the object: it holds the object's bytes
starting at `bufStart`. -/
def StreamingReader.Inv (s : StreamingReader) : Prop :=
  s.buf = (s.data.drop s.bufStart).take s.buf.length

lemma take_take_length (xs : Bytes) (k : Nat) :
    xs.take k = xs.take (xs.take k).length := by
  rw [List.length_take]
  rcases Nat.le_total k xs.length with h | h
  · rw [Nat.min_eq_left h]
  · rw [Nat.min_eq_right h, List.take_of_length_le h, List.take_of_length_le le_rfl]

lemma StreamingReader.mk0_inv (data : Bytes) (B : Nat) :
    (StreamingReader.mk0 data B).Inv := by
  simp [StreamingReader.mk0, StreamingReader.Inv]

lemma StreamingReader.inv_len_le (s : StreamingReader) (hI : s.Inv)
    (hb : 0 < s.buf.length) :
    s.bufStart + s.buf.length ≤ s.data.length := by
  have h := congrArg List.length hI
  rw [List.length_take, List.length_drop] at h
  omega

/-- A chunk taken from position `p` followed by the rest of the object from
the end of the chunk re-assembles the object from position `p`. -/
lemma chunk_append (data : Bytes) (p : Nat) (out : Bytes)
    (h : out = (data.drop p).take out.length) :
    out ++ data.drop (p + out.length) = data.drop p := by
  conv_rhs => rw [← List.take_append_drop out.length (data.drop p)]
  rw [← h, List.drop_drop, Nat.add_comm]

lemma StreamingReader.read_step (s : StreamingReader) (n : Nat) (hI : s.Inv) :
    (s.read n).fst = (s.data.drop s.pos).take (s.read n).fst.length ∧
    (s.read n).snd.pos = s.pos + (s.read n).fst.length ∧
    (s.read n).snd.data = s.data ∧
    (s.read n).snd.Inv ∧
    (0 < n → s.pos < s.data.length → (s.read n).fst ≠ []) ∧
    (s.data.length ≤ s.pos → (s.read n).fst = []) := by
  by_cases hhit : s.bufStart ≤ s.pos ∧ s.pos < s.bufStart + s.buf.length
  · -- served from the trailing remainder of the buffer
    have hb : 0 < s.buf.length := by omega
    have hle := s.inv_len_le hI hb
    have hpos : s.pos < s.data.length := by omega
    have hbufdrop : s.buf.drop (s.pos - s.bufStart) =
        (s.data.drop s.pos).take (s.buf.length - (s.pos - s.bufStart)) := by
      conv_lhs => rw [hI]
      rw [List.drop_take, List.drop_drop]
      congr 2
      omega
    simp only [StreamingReader.read, if_pos hhit]
    refine ⟨?_, by trivial, by trivial, ?_, ?_, ?_⟩
    · rw [hbufdrop, List.take_take]
      exact take_take_length _ _
    · simpa [StreamingReader.Inv] using hI
    · intro hn _
      rw [hbufdrop, List.take_take]
      have hlen : ((s.data.drop s.pos).take
          (min n (s.buf.length - (s.pos - s.bufStart)))).length =
          min (min n (s.buf.length - (s.pos - s.bufStart)))
            (s.data.length - s.pos) := by
        simp [List.length_take, List.length_drop]
      intro hnil
      rw [hnil] at hlen
      simp at hlen
      omega
    · intro hge; omega
  · -- buffer miss: one get_range call replaces the buffer
    simp only [StreamingReader.read, if_neg hhit]
    have hfetched : (get_range s.data s.pos (max n s.bufferSize)).take n =
        (s.data.drop s.pos).take n := by
      rw [get_range, List.take_take, Nat.min_eq_left (Nat.le_max_left _ _)]
    refine ⟨?_, by trivial, by trivial, ?_, ?_, ?_⟩
    · rw [hfetched, ← take_take_length]
    · simp only [StreamingReader.Inv, get_range]
      rw [← take_take_length]
    · intro hn hpos
      rw [hfetched]
      intro hnil
      have hlen := congrArg List.length hnil
      simp [List.length_take, List.length_drop] at hlen
      omega
    · intro hge
      rw [hfetched, List.drop_eq_nil_of_le hge, List.take_nil]

/-- Reading to EOF in chunks from any valid session returns exactly the bytes
of the object from the current position on, provided the fuel covers the
remaining length. -/
lemma readChunks_drop (B : Nat) (hB : 0 < B) :
    ∀ fuel (s : StreamingReader), s.Inv → s.data.length ≤ s.pos + fuel →
      readChunks B fuel s = s.data.drop s.pos := by
  intro fuel
  induction fuel with
  | zero =>
    intro s _ hf
    rw [readChunks, List.drop_eq_nil_of_le (by omega)]
  | succ fuel ih =>
    intro s hI hf
    obtain ⟨hout, hpos, hdata, hInv, hprog, heof⟩ := s.read_step B hI
    rw [readChunks]
    by_cases hend : s.data.length ≤ s.pos
    · simp [heof hend, List.drop_eq_nil_of_le hend]
    · have hlt : s.pos < s.data.length := by omega
      have hne := hprog hB hlt
      simp only [if_neg hne]
      have hlenpos : 0 < (s.read B).fst.length := List.length_pos.mpr hne
      have hrec : readChunks B fuel (s.read B).snd =
          (s.read B).snd.data.drop (s.read B).snd.pos := by
        apply ih _ hInv
        rw [hdata, hpos]
        omega
      rw [hrec, hdata, hpos]
      exact chunk_append s.data s.pos _ hout

/-- Modelled from the spec: the error taxonomy of the subsystem
(spec section 7): NotFound, Busy/Conflict, UnsupportedOperation,
TransportFailure, IncompleteUpload, as distinct conditions. -/
inductive StoreErr where
  | notFound
  | busy
  | unsupportedOperation
  | transportFailure
  | incompleteUpload
deriving DecidableEq, Repr

/-- Modelled from the spec: one call against the upload side of the
ObjectStoreBackend contract: `put_part`, `put_whole`, or `complete_upload`. -/
inductive UploadOp where
  | putPart (b : Bytes)
  | putWhole (b : Bytes)
  | completeUpload
deriving DecidableEq, Repr

/-- Modelled from the spec: the write-path session state of
StreamingBufferedIO (spec section 4.4): the configured chunk size, the
in-memory write-behind buffer, the parts uploaded so far in strict append
order (MultipartUploadState), and the logical position, which equals the
total number of bytes written so far. -/
structure StreamingWriter where
  chunkSize : Nat
  buffer : Bytes
  parts : List Bytes
  pos : Nat
deriving DecidableEq, Repr

/-- Flushing the write-behind buffer: whenever the buffer reaches the
configured chunk size, a chunk-sized part is uploaded with `put_part` and
recorded in append order. `fuel` bounds the number of flushes; callers pass
at least the buffer length. -/
def flushFull : Nat → Nat → Bytes → List Bytes → Bytes × List Bytes
  | 0, _, buffer, parts => (buffer, parts)
  | fuel + 1, chunk, buffer, parts =>
    if 0 < chunk ∧ chunk ≤ buffer.length then
      flushFull fuel chunk (buffer.drop chunk) (parts ++ [buffer.take chunk])
    else (buffer, parts)

/-- Modelled from the spec: `write(bytes)` on the StreamingBufferedIO write
path appends to the in-memory buffer and flushes any full chunks as uploaded
parts. -/
def StreamingWriter.write (w : StreamingWriter) (b : Bytes) : StreamingWriter :=
  let fp := flushFull (w.buffer ++ b).length w.chunkSize (w.buffer ++ b) w.parts
  { w with buffer := fp.fst, parts := fp.snd, pos := w.pos + b.length }

/-- A freshly opened streaming write session. -/
def StreamingWriter.mk0 (chunk : Nat) : StreamingWriter :=
  ⟨chunk, [], [], 0⟩

/-- Writing a list of pieces, in order, through a fresh streaming write
session. -/
def writeAll (chunk : Nat) (pieces : List Bytes) : StreamingWriter :=
  pieces.foldl StreamingWriter.write (StreamingWriter.mk0 chunk)

/-- Modelled from the spec: the backend calls that `close()` performs: if no
part was ever uploaded, a single whole-object `put_whole` of the buffered
bytes (no multipart machinery); otherwise any remaining buffered bytes go out
as a final `put_part` and `complete_upload` is then called. -/
def StreamingWriter.closeOps (w : StreamingWriter) : List UploadOp :=
  if w.parts = [] then [UploadOp.putWhole w.buffer]
  else (if w.buffer = [] then [] else [UploadOp.putPart w.buffer]) ++
    [UploadOp.completeUpload]

/-- All backend upload calls of a whole streaming write session: the parts
flushed during `write` calls, in order, followed by the calls made by
`close()`. -/
def StreamingWriter.sessionOps (w : StreamingWriter) : List UploadOp :=
  w.parts.map UploadOp.putPart ++ w.closeOps

/-- The bytes of the remote object after `close()`: the single `put_whole`
payload, or the ordered parts committed by `complete_upload`. -/
def StreamingWriter.closeObject (w : StreamingWriter) : Bytes :=
  if w.parts = [] then w.buffer
  else (w.parts ++ (if w.buffer = [] then [] else [w.buffer])).flatten

/-- Modelled from the spec: `seek` on an open write-mode streaming session.
Writes are append-only: seeking anywhere other than the current position
(backward in particular) is rejected with UnsupportedOperation, and the
session state is returned unchanged. -/
def StreamingWriter.seek (w : StreamingWriter) (target : Nat) :
    Except StoreErr Unit × StreamingWriter :=
  if target = w.pos then (Except.ok (), w)
  else (Except.error StoreErr.unsupportedOperation, w)

/-- The concatenation of all `put_part` payloads in a list of upload calls. -/
def partsPayload : List UploadOp → Bytes
  | [] => []
  | UploadOp.putPart b :: rest => b ++ partsPayload rest
  | _ :: rest => partsPayload rest

lemma flushFull_content (fuel chunk : Nat) :
    ∀ (buffer : Bytes) (parts : List Bytes),
      (flushFull fuel chunk buffer parts).snd.flatten ++
        (flushFull fuel chunk buffer parts).fst =
      parts.flatten ++ buffer := by
  induction fuel with
  | zero => intro buffer parts; rfl
  | succ fuel ih =>
    intro buffer parts
    rw [flushFull]
    by_cases h : 0 < chunk ∧ chunk ≤ buffer.length
    · rw [if_pos h, ih]
      simp [List.append_assoc]
    · rw [if_neg h]

lemma flushFull_small (fuel chunk : Nat) (buffer : Bytes) (parts : List Bytes)
    (h : buffer.length < chunk) :
    flushFull fuel chunk buffer parts = (buffer, parts) := by
  cases fuel with
  | zero => rfl
  | succ fuel =>
    rw [flushFull, if_neg]
    intro hc
    omega

lemma flushFull_bound (chunk : Nat) (hc : 0 < chunk) :
    ∀ (fuel : Nat) (buffer : Bytes) (parts : List Bytes),
      buffer.length ≤ fuel →
      (flushFull fuel chunk buffer parts).fst.length < chunk := by
  intro fuel
  induction fuel with
  | zero =>
    intro buffer parts hf
    have : buffer = [] := List.eq_nil_of_length_eq_zero (by omega)
    subst this
    simpa [flushFull] using hc
  | succ fuel ih =>
    intro buffer parts hf
    rw [flushFull]
    by_cases h : 0 < chunk ∧ chunk ≤ buffer.length
    · rw [if_pos h]
      apply ih
      rw [List.length_drop]
      omega
    · rw [if_neg h]
      show buffer.length < chunk
      omega

lemma StreamingWriter.write_content (w : StreamingWriter) (b : Bytes) :
    (w.write b).parts.flatten ++ (w.write b).buffer =
      w.parts.flatten ++ w.buffer ++ b := by
  simp only [StreamingWriter.write]
  rw [flushFull_content]
  simp [List.append_assoc]

lemma StreamingWriter.write_chunkSize (w : StreamingWriter) (b : Bytes) :
    (w.write b).chunkSize = w.chunkSize := rfl

lemma StreamingWriter.write_pos (w : StreamingWriter) (b : Bytes) :
    (w.write b).pos = w.pos + b.length := rfl

lemma foldl_write_content (pieces : List Bytes) :
    ∀ (w : StreamingWriter),
      (pieces.foldl StreamingWriter.write w).parts.flatten ++
        (pieces.foldl StreamingWriter.write w).buffer =
      w.parts.flatten ++ w.buffer ++ pieces.flatten := by
  induction pieces with
  | nil => intro w; simp
  | cons p rest ih =>
    intro w
    rw [List.foldl_cons, ih, StreamingWriter.write_content]
    simp [List.append_assoc]

lemma writeAll_content (chunk : Nat) (pieces : List Bytes) :
    (writeAll chunk pieces).parts.flatten ++ (writeAll chunk pieces).buffer =
      pieces.flatten := by
  rw [writeAll, foldl_write_content]
  simp [StreamingWriter.mk0]

lemma foldl_write_pos (pieces : List Bytes) :
    ∀ (w : StreamingWriter),
      (pieces.foldl StreamingWriter.write w).pos = w.pos + pieces.flatten.length := by
  induction pieces with
  | nil => intro w; simp
  | cons p rest ih =>
    intro w
    rw [List.foldl_cons, ih, StreamingWriter.write_pos]
    simp [List.length_append]
    omega

lemma writeAll_pos (chunk : Nat) (pieces : List Bytes) :
    (writeAll chunk pieces).pos = pieces.flatten.length := by
  rw [writeAll, foldl_write_pos]
  simp [StreamingWriter.mk0]

lemma StreamingWriter.closeObject_eq (w : StreamingWriter) :
    w.closeObject = w.parts.flatten ++ w.buffer := by
  rw [StreamingWriter.closeObject]
  by_cases hp : w.parts = []
  · rw [if_pos hp, hp]
    rfl
  · rw [if_neg hp]
    by_cases hb : w.buffer = []
    · rw [if_pos hb, hb]
      simp
    · rw [if_neg hb]
      simp

/-- Modelled from the spec: a remote object as the backend's `stat` reports
and `download_whole` delivers it: its bytes and its last-known etag and
mtime version markers. -/
structure RemoteObj where
  data : Bytes
  etag : Nat
  mtime : Nat
deriving DecidableEq, Repr

/-- Modelled from the spec: a CacheEntry (spec section 3): local bookkeeping
linking a cached file to its source key, the remote's last-known etag/mtime,
and the local file's mtime. -/
structure CacheEntry where
  source_key : Nat
  data : Bytes
  remote_etag : Nat
  remote_mtime : Nat
  local_mtime : Nat
deriving DecidableEq, Repr

/-- Modelled from the spec: the state owned by CacheStore, plus counters for
the backend calls it issues (`stat` and `download_whole`), used to express
the cache-hit and no-network properties. -/
structure CacheState where
  entries : Nat → Option CacheEntry
  statCalls : Nat
  downloadCalls : Nat

/-- A cold cache: no entries, no backend calls issued yet. -/
def initCache : CacheState := ⟨fun _ => none, 0, 0⟩

/-- The local path a key is materialized to: the cache root mirrors the
remote key hierarchy, so the path is determined by the key alone. -/
def localPathOf (key : Nat) : Nat := key

/-- Recording a fresh CacheEntry after a `download_whole` (cache
miss/refresh). -/
def CacheState.refresh (st : CacheState) (key : Nat) (obj : RemoteObj) :
    CacheState :=
  { st with
    downloadCalls := st.downloadCalls + 1,
    entries := fun k =>
      if k = key then some ⟨key, obj.data, obj.etag, obj.mtime, 0⟩
      else st.entries k }

/-- Modelled from the spec: `CacheStore.materialize(key, backend)` (spec
section 4.1). It issues a fresh `stat()` call; a failed `stat` (object
absent) surfaces as NotFound rather than falling back to a stale cache
entry. If a CacheEntry exists whose recorded remote etag/mtime matches the
fresh `stat`, the existing local file is returned without a download (cache
hit); otherwise `download_whole` is performed and a new CacheEntry recorded. -/
def materialize (remote : Nat → Option RemoteObj) (key : Nat)
    (st : CacheState) : Except StoreErr (Nat × CacheState) :=
  match remote key with
  | none => Except.error StoreErr.notFound
  | some obj =>
    match st.entries key with
    | some e =>
      if e.remote_etag = obj.etag ∧ e.remote_mtime = obj.mtime then
        Except.ok (localPathOf key, { st with statCalls := st.statCalls + 1 })
      else
        Except.ok (localPathOf key,
          CacheState.refresh { st with statCalls := st.statCalls + 1 } key obj)
    | none =>
      Except.ok (localPathOf key,
        CacheState.refresh { st with statCalls := st.statCalls + 1 } key obj)

/-- A local cache file: its bytes and its mtime. -/
structure LocalFile where
  data : Bytes
  mtime : Nat
deriving DecidableEq, Repr

/-- Modelled from the spec: the handle state a MaterializingWriter keeps: the
source key it holds exclusively, and the local file mtime recorded at open
time, against which `upload_if_changed` compares on close. -/
structure WriteSession where
  source_key : Nat
  mtime_at_open : Nat
deriving DecidableEq, Repr

/-- Modelled from the spec: the in-process state that the
MaterializingReader/Writer layer works over: the local cache files, the keys
currently open for writing (at-most-one-writer-per-key), a counter of upload
calls issued against the ObjectStoreBackend, and a logical clock supplying
fresh mtimes. -/
structure ProcState where
  files : Nat → Option LocalFile
  openWriters : List Nat
  uploadCalls : Nat
  clock : Nat

/-- A fresh process: no cached files, no open writers, no backend calls. -/
def initProc : ProcState := ⟨fun _ => none, [], 0, 0⟩

/-- Modelled from the spec: `open_for_write(key)` (spec section 4.2). If
another write handle on the same key is still open in this process, the call
fails fast with Busy and the state is returned untouched; otherwise it
creates or truncates the local cache file (not yet uploaded), records the
key as open for writing, and returns a handle carrying the local mtime at
open time. -/
def open_for_write (key : Nat) (st : ProcState) :
    Except StoreErr WriteSession × ProcState :=
  if key ∈ st.openWriters then (Except.error StoreErr.busy, st)
  else
    (Except.ok ⟨key, st.clock + 1⟩,
      { st with
        files := fun k => if k = key then some ⟨[], st.clock + 1⟩ else st.files k,
        openWriters := key :: st.openWriters,
        clock := st.clock + 1 })

/-- Modelled from the spec: writing through a materializing write handle
modifies the local cache file and bumps its mtime; no upload happens before
close. -/
def write_local (sess : WriteSession) (b : Bytes) (st : ProcState) :
    ProcState :=
  let m := st.clock + 1
  { st with
    clock := m,
    files := fun k =>
      if k = sess.source_key then
        some ⟨(match st.files sess.source_key with
               | some f => f.data
               | none => []) ++ b, m⟩
      else st.files k }

/-- Modelled from the spec: `upload_if_changed` (spec section 4.1): compares
the local file mtime against the mtime recorded at open time; if unchanged,
the upload is skipped; a caller-supplied force flag uploads
unconditionally. -/
def upload_if_changed (sess : WriteSession) (force : Bool) (st : ProcState) :
    ProcState :=
  let cur := match st.files sess.source_key with
             | some f => f.mtime
             | none => 0
  if force || cur ≠ sess.mtime_at_open then
    { st with uploadCalls := st.uploadCalls + 1 }
  else st

/-- Modelled from the spec: `close()` on a materializing write handle calls
`upload_if_changed` and releases the per-key write exclusivity. -/
def close_writer (sess : WriteSession) (force : Bool) (st : ProcState) :
    ProcState :=
  let st1 := upload_if_changed sess force st
  { st1 with openWriters := st1.openWriters.erase sess.source_key }

/-- Modelled from the spec: a streaming-mode text handle (StreamingTextIO
wraps the binary streaming session with encoding/newline translation; no
local file exists behind it). -/
inductive StreamingText where
  | readerMode (r : StreamingReader)
  | writerMode (w : StreamingWriter)

/-- Modelled from the spec: the handles `open()` can return: a materialized
local file, or a streaming binary/text session that never touches local
disk. -/
inductive OpenHandle where
  | materialized (localPath : Nat)
  | streamingBinaryReader (r : StreamingReader)
  | streamingBinaryWriter (w : StreamingWriter)
  | streamingText (t : StreamingText)

/-- Modelled from the spec: fspath-style access to a local filesystem path.
Materialized handles have a real local file; streaming handles have none, so
the request fails with a distinct UnsupportedOperation condition rather than
returning any (empty or placeholder) path. -/
def OpenHandle.fspath : OpenHandle → Except StoreErr Nat
  | OpenHandle.materialized p => Except.ok p
  | OpenHandle.streamingBinaryReader _ =>
      Except.error StoreErr.unsupportedOperation
  | OpenHandle.streamingBinaryWriter _ =>
      Except.error StoreErr.unsupportedOperation
  | OpenHandle.streamingText _ =>
      Except.error StoreErr.unsupportedOperation

/-- Modelled from the streaming documentation (capability flags of
`CloudBufferedIO`): `seekable()` returns True on every handle, write-mode
streaming handles included. -/
def OpenHandle.seekable : OpenHandle → Bool := fun _ => true

/-- Modelled from the streaming documentation (capability flags of
`CloudBufferedIO`): `writable()` returns True for write modes. -/
def OpenHandle.writable : OpenHandle → Bool
  | OpenHandle.materialized _ => true
  | OpenHandle.streamingBinaryReader _ => false
  | OpenHandle.streamingBinaryWriter _ => true
  | OpenHandle.streamingText (StreamingText.readerMode _) => false
  | OpenHandle.streamingText (StreamingText.writerMode _) => true

/- Further supporting lemmas. -/

lemma foldl_write_small (pieces : List Bytes) :
    ∀ (w : StreamingWriter), w.parts = [] →
      w.buffer.length + pieces.flatten.length < w.chunkSize →
      (pieces.foldl StreamingWriter.write w).parts = [] ∧
      (pieces.foldl StreamingWriter.write w).buffer = w.buffer ++ pieces.flatten := by
  induction pieces with
  | nil => intro w hp _; simp [hp]
  | cons p rest ih =>
    intro w hp hlen
    simp only [List.flatten_cons, List.length_append] at hlen
    have hflush : flushFull (w.buffer ++ p).length w.chunkSize (w.buffer ++ p)
        w.parts = (w.buffer ++ p, w.parts) := by
      apply flushFull_small
      rw [List.length_append]
      omega
    have h1 : (w.write p).parts = [] := by
      show (flushFull (w.buffer ++ p).length w.chunkSize (w.buffer ++ p)
        w.parts).snd = []
      rw [hflush, hp]
    have h2 : (w.write p).buffer = w.buffer ++ p := by
      show (flushFull (w.buffer ++ p).length w.chunkSize (w.buffer ++ p)
        w.parts).fst = w.buffer ++ p
      rw [hflush]
    rw [List.foldl_cons]
    obtain ⟨ih1, ih2⟩ := ih (w.write p) h1 (by
      rw [h2, StreamingWriter.write_chunkSize, List.length_append]
      omega)
    refine ⟨ih1, ?_⟩
    rw [ih2, h2]
    simp [List.append_assoc]

lemma foldl_write_chunkSize (pieces : List Bytes) :
    ∀ (w : StreamingWriter),
      (pieces.foldl StreamingWriter.write w).chunkSize = w.chunkSize := by
  induction pieces with
  | nil => intro w; rfl
  | cons p rest ih =>
    intro w
    rw [List.foldl_cons, ih, StreamingWriter.write_chunkSize]

lemma foldl_write_buffer_lt (pieces : List Bytes) :
    ∀ (w : StreamingWriter), 0 < w.chunkSize → w.buffer.length < w.chunkSize →
      (pieces.foldl StreamingWriter.write w).buffer.length < w.chunkSize := by
  induction pieces with
  | nil => intro w _ hb; exact hb
  | cons p rest ih =>
    intro w hc hb
    rw [List.foldl_cons]
    have hb2 : (w.write p).buffer.length < w.chunkSize := by
      simp only [StreamingWriter.write]
      exact flushFull_bound w.chunkSize hc _ _ _ le_rfl
    have h := ih (w.write p) (by rw [StreamingWriter.write_chunkSize]; exact hc)
      (by rw [StreamingWriter.write_chunkSize]; exact hb2)
    rw [StreamingWriter.write_chunkSize] at h
    exact h

lemma writeAll_buffer_lt (chunk : Nat) (hc : 0 < chunk) (pieces : List Bytes) :
    (writeAll chunk pieces).buffer.length < chunk := by
  exact foldl_write_buffer_lt pieces (StreamingWriter.mk0 chunk) hc hc

lemma partsPayload_append (xs ys : List UploadOp) :
    partsPayload (xs ++ ys) = partsPayload xs ++ partsPayload ys := by
  induction xs with
  | nil => rfl
  | cons x rest ih => cases x <;> simp [partsPayload, ih]

lemma partsPayload_map (ps : List Bytes) :
    partsPayload (ps.map UploadOp.putPart) = ps.flatten := by
  induction ps with
  | nil => rfl
  | cons p rest ih => simp [partsPayload, ih]

lemma materialize_miss (remote : Nat → Option RemoteObj) (key : Nat)
    (st : CacheState) (obj : RemoteObj) (hr : remote key = some obj)
    (he : st.entries key = none) :
    materialize remote key st =
      Except.ok (localPathOf key,
        CacheState.refresh { st with statCalls := st.statCalls + 1 } key obj) := by
  simp [materialize, hr, he]

lemma materialize_hit (remote : Nat → Option RemoteObj) (key : Nat)
    (st : CacheState) (obj : RemoteObj) (e : CacheEntry)
    (hr : remote key = some obj) (he : st.entries key = some e)
    (het : e.remote_etag = obj.etag) (hmt : e.remote_mtime = obj.mtime) :
    materialize remote key st =
      Except.ok (localPathOf key, { st with statCalls := st.statCalls + 1 }) := by
  simp [materialize, hr, he, het, hmt]

/- The remote store, the stale cache and the call-count observers used by
the concrete counterexample and witness states. -/

/-- A concrete one-object remote store: key 0 holds bytes [1, 2] with etag 5
and mtime 9. -/
def remote0 : Nat → Option RemoteObj :=
  fun k => if k = 0 then some ⟨[1, 2], 5, 9⟩ else none

/-- The number of `stat` backend calls recorded in a materialize result. -/
def statCallsAfter (r : Except StoreErr (Nat × CacheState)) : Nat :=
  match r with
  | Except.ok (_, st) => st.statCalls
  | Except.error _ => 0

/-- The number of `download_whole` backend calls recorded in a materialize
result. -/
def downloadCallsAfter (r : Except StoreErr (Nat × CacheState)) : Nat :=
  match r with
  | Except.ok (_, st) => st.downloadCalls
  | Except.error _ => 0

/-- The result of materializing key 0 of `remote0` twice from a cold
cache. -/
def secondCall : Except StoreErr (Nat × CacheState) :=
  match materialize remote0 0 initCache with
  | Except.ok (_, st) => materialize remote0 0 st
  | e => e

/-- A cache holding a (stale) entry for key 0 and no recorded backend
calls. -/
def staleCache : CacheState :=
  ⟨fun k => if k = 0 then some ⟨0, [9, 9], 1, 1, 0⟩ else none, 0, 0⟩

/- Claim theorems. -/

/-- Claim C1: for every remote object and every configured buffer size
B > 0, reading the entire object to EOF through the streaming read path in
B-sized chunks and concatenating the results yields exactly the byte
sequence that `download_whole` produces. -/
theorem streaming_read_equals_download_whole (data : Bytes) (B : Nat)
    (hB : 0 < B) :
    readChunks B (data.length + 1) (StreamingReader.mk0 data B) =
      download_whole data := by
  have h := readChunks_drop B hB (data.length + 1) (StreamingReader.mk0 data B)
    (StreamingReader.mk0_inv data B)
    (by show data.length ≤ 0 + (data.length + 1); omega)
  simpa [StreamingReader.mk0, download_whole] using h

theorem streaming_read_equals_download_whole_witness :
    0 < 2 ∧
      readChunks 2 (([1, 2, 3, 4, 5] : Bytes).length + 1)
          (StreamingReader.mk0 [1, 2, 3, 4, 5] 2) =
        download_whole [1, 2, 3, 4, 5] :=
  ⟨by decide, streaming_read_equals_download_whole [1, 2, 3, 4, 5] 2 (by decide)⟩

/-- Claim C2: for every payload and every partition of it into write calls
of arbitrary sizes, writing the pieces in order through the streaming write
path, closing, and reading the object back (by materializing it with
`download_whole`, or through the streaming read path) reproduces exactly the
original payload bytes. -/
theorem streaming_write_round_trip (chunk B : Nat) (hB : 0 < B)
    (pieces : List Bytes) :
    download_whole ((writeAll chunk pieces).closeObject) = pieces.flatten ∧
    readChunks B (((writeAll chunk pieces).closeObject).length + 1)
        (StreamingReader.mk0 ((writeAll chunk pieces).closeObject) B) =
      pieces.flatten := by
  have hobj : (writeAll chunk pieces).closeObject = pieces.flatten := by
    rw [StreamingWriter.closeObject_eq, writeAll_content]
  constructor
  · rw [download_whole, hobj]
  · rw [hobj]
    have h := readChunks_drop B hB (pieces.flatten.length + 1)
      (StreamingReader.mk0 pieces.flatten B)
      (StreamingReader.mk0_inv pieces.flatten B)
      (by show pieces.flatten.length ≤ 0 + (pieces.flatten.length + 1); omega)
    simpa [StreamingReader.mk0] using h

theorem streaming_write_round_trip_witness :
    0 < 3 ∧
      (download_whole ((writeAll 2 [[1], [2, 3, 4], [5]]).closeObject) =
          ([[1], [2, 3, 4], [5]] : List Bytes).flatten ∧
        readChunks 3 (((writeAll 2 [[1], [2, 3, 4], [5]]).closeObject).length + 1)
            (StreamingReader.mk0 ((writeAll 2 [[1], [2, 3, 4], [5]]).closeObject) 3) =
          ([[1], [2, 3, 4], [5]] : List Bytes).flatten) :=
  ⟨by decide, streaming_write_round_trip 2 3 (by decide) [[1], [2, 3, 4], [5]]⟩

/-- Claim C5 counterexample: with chunk size 1, a session that writes exactly
one chunk (1 byte) never exceeds one configured chunk, yet the buffer reaches
the chunk size during `write`, so the byte is flushed as a part and `close()`
runs the multipart machinery (`put_part` then `complete_upload`); no
`put_whole` call is made. -/
theorem close_exact_chunk_counterexample :
    ([7] : Bytes).length ≤ 1 ∧
    (writeAll 1 [[7]]).sessionOps =
      [UploadOp.putPart [7], UploadOp.completeUpload] ∧
    (∀ bs, UploadOp.putWhole bs ∉ (writeAll 1 [[7]]).sessionOps) := by
  refine ⟨by decide, by decide, ?_⟩
  intro bs hmem
  have hops : (writeAll 1 [[7]]).sessionOps =
      [UploadOp.putPart [7], UploadOp.completeUpload] := by decide
  rw [hops] at hmem
  simp at hmem

/-- Claim C5 (amended): `close()` finalizes the upload as follows. If the
total number of bytes written stayed strictly below one configured chunk,
the whole session makes exactly one `put_whole` call and no multipart
machinery is used. Otherwise (total at least one chunk, at which point the
buffer reached the chunk size at least once and a part was flushed), no
`put_whole` happens: all bytes — any remaining buffered bytes going out as a
final part — are uploaded via `put_part` calls and `complete_upload` is the
last call of the session. -/
theorem close_flush_and_finalize (chunk : Nat) (hc : 0 < chunk)
    (pieces : List Bytes) :
    (pieces.flatten.length < chunk →
      (writeAll chunk pieces).sessionOps = [UploadOp.putWhole pieces.flatten]) ∧
    (chunk ≤ pieces.flatten.length →
      (∀ bs, UploadOp.putWhole bs ∉ (writeAll chunk pieces).sessionOps) ∧
      (writeAll chunk pieces).sessionOps.getLast? =
        some UploadOp.completeUpload ∧
      partsPayload ((writeAll chunk pieces).sessionOps) = pieces.flatten) := by
  constructor
  · intro hsmall
    obtain ⟨hp, hb⟩ := foldl_write_small pieces (StreamingWriter.mk0 chunk) rfl
      (by show ([] : Bytes).length + pieces.flatten.length < chunk
          simpa using hsmall)
    have hp2 : (writeAll chunk pieces).parts = [] := hp
    have hb2 : (writeAll chunk pieces).buffer = pieces.flatten := by
      show (pieces.foldl StreamingWriter.write
        (StreamingWriter.mk0 chunk)).buffer = pieces.flatten
      rw [hb]
      rfl
    rw [StreamingWriter.sessionOps, StreamingWriter.closeOps, if_pos hp2,
      hp2, hb2]
    rfl
  · intro hbig
    have hbuf : (writeAll chunk pieces).buffer.length < chunk :=
      writeAll_buffer_lt chunk hc pieces
    have hcontent := writeAll_content chunk pieces
    have hlen := congrArg List.length hcontent
    rw [List.length_append] at hlen
    have hp : (writeAll chunk pieces).parts ≠ [] := by
      intro h
      rw [h] at hlen
      simp only [List.flatten_nil, List.length_nil, Nat.zero_add] at hlen
      omega
    refine ⟨?_, ?_, ?_⟩
    · intro bs hmem
      rw [StreamingWriter.sessionOps, StreamingWriter.closeOps,
        if_neg hp] at hmem
      by_cases hbe : (writeAll chunk pieces).buffer = [] <;>
        simp [hbe] at hmem
    · rw [StreamingWriter.sessionOps, StreamingWriter.closeOps, if_neg hp,
        ← List.append_assoc]
      exact List.getLast?_concat _
    · rw [StreamingWriter.sessionOps, StreamingWriter.closeOps, if_neg hp,
        partsPayload_append, partsPayload_map, partsPayload_append]
      by_cases hbe : (writeAll chunk pieces).buffer = []
      · rw [if_pos hbe]
        rw [← hcontent, hbe]
        simp [partsPayload]
      · rw [if_neg hbe]
        rw [← hcontent]
        simp [partsPayload]

theorem close_flush_and_finalize_witness :
    0 < 3 ∧
      ((([[1, 2]] : List Bytes).flatten.length < 3 →
        (writeAll 3 [[1, 2]]).sessionOps =
          [UploadOp.putWhole (([[1, 2]] : List Bytes).flatten)]) ∧
       (3 ≤ ([[1, 2]] : List Bytes).flatten.length →
        (∀ bs, UploadOp.putWhole bs ∉ (writeAll 3 [[1, 2]]).sessionOps) ∧
        (writeAll 3 [[1, 2]]).sessionOps.getLast? =
          some UploadOp.completeUpload ∧
        partsPayload ((writeAll 3 [[1, 2]]).sessionOps) =
          ([[1, 2]] : List Bytes).flatten)) :=
  ⟨by decide, close_flush_and_finalize 3 (by decide) [[1, 2]]⟩

/-- Claim C3 counterexample: materializing key 0 of the concrete store
`remote0` twice from a cold cache leaves the `download_whole` count at 1, as
the claim says, but the second call bumps the `stat` count from 1 to 2: it
does perform a network operation (the freshness `stat`), refuting "the
second call performs no network operation". -/
theorem cache_hit_second_call_counterexample :
    downloadCallsAfter (materialize remote0 0 initCache) = 1 ∧
    downloadCallsAfter secondCall = 1 ∧
    statCallsAfter (materialize remote0 0 initCache) = 1 ∧
    statCallsAfter secondCall = 2 := by decide

/-- Claim C3 (amended): for a key whose remote object does not change
between the two calls, calling materialize twice from a cold cache performs
exactly one `download_whole` call in total — the second call performs no
download, only the `stat` freshness check (which is why it is not entirely
network-free) — and both calls return the same local path. -/
theorem cache_hit_single_download (remote : Nat → Option RemoteObj)
    (key : Nat) (obj : RemoteObj) (hr : remote key = some obj) :
    ∃ st1 st2,
      materialize remote key initCache = Except.ok (localPathOf key, st1) ∧
      materialize remote key st1 = Except.ok (localPathOf key, st2) ∧
      st1.downloadCalls = 1 ∧ st2.downloadCalls = 1 ∧
      st2.statCalls = st1.statCalls + 1 := by
  have h1 := materialize_miss remote key initCache obj hr rfl
  have he1 : (CacheState.refresh { initCache with
      statCalls := initCache.statCalls + 1 } key obj).entries key =
      some ⟨key, obj.data, obj.etag, obj.mtime, 0⟩ := by
    simp [CacheState.refresh]
  have h2 := materialize_hit remote key
    (CacheState.refresh { initCache with
      statCalls := initCache.statCalls + 1 } key obj) obj
    ⟨key, obj.data, obj.etag, obj.mtime, 0⟩ hr he1 rfl rfl
  exact ⟨_, _, h1, h2, rfl, rfl, rfl⟩

theorem cache_hit_single_download_witness :
    ∃ st1 st2,
      materialize remote0 0 initCache = Except.ok (localPathOf 0, st1) ∧
      materialize remote0 0 st1 = Except.ok (localPathOf 0, st2) ∧
      st1.downloadCalls = 1 ∧ st2.downloadCalls = 1 ∧
      st2.statCalls = st1.statCalls + 1 :=
  cache_hit_single_download remote0 0 ⟨[1, 2], 5, 9⟩ (by decide)

/-- Claim C4: within one process, at most one writer handle per key is open
at any time: while a successful `open_for_write(key)` is still open, a
second `open_for_write` on the same key fails fast with Busy, returning the
process state untouched — no data of either writer is modified. -/
theorem write_exclusivity (key : Nat) (st st1 : ProcState)
    (sess : WriteSession)
    (h : open_for_write key st = (Except.ok sess, st1)) :
    open_for_write key st1 = (Except.error StoreErr.busy, st1) := by
  rw [open_for_write] at h
  by_cases hmem : key ∈ st.openWriters
  · rw [if_pos hmem] at h
    simp at h
  · rw [if_neg hmem] at h
    injection h with h1 h2
    have hmem1 : key ∈ st1.openWriters := by
      rw [← h2]
      exact List.mem_cons_self _ _
    rw [open_for_write, if_pos hmem1]

theorem write_exclusivity_witness :
    open_for_write 0 ((open_for_write 0 initProc).snd) =
      (Except.error StoreErr.busy, (open_for_write 0 initProc).snd) :=
  write_exclusivity 0 initProc ((open_for_write 0 initProc).snd) ⟨0, 1⟩ rfl

/-- Claim C6: when a fresh `stat` reports the object absent, materialize
raises NotFound — a condition distinct from generic I/O failure
(TransportFailure) — and never returns a previously cached local file for
the key, even when a stale CacheEntry exists in the given cache state. -/
theorem materialize_absent_not_found (remote : Nat → Option RemoteObj)
    (key : Nat) (st : CacheState) (h : remote key = none) :
    materialize remote key st = Except.error StoreErr.notFound ∧
    (∀ p st2, materialize remote key st ≠ Except.ok (p, st2)) ∧
    StoreErr.notFound ≠ StoreErr.transportFailure := by
  have h1 : materialize remote key st = Except.error StoreErr.notFound := by
    simp [materialize, h]
  refine ⟨h1, fun p st2 hok => ?_, by decide⟩
  rw [h1] at hok
  exact Except.noConfusion hok

theorem materialize_absent_not_found_witness :
    materialize (fun _ => none) 0 staleCache =
      Except.error StoreErr.notFound ∧
    (∀ p st2,
      materialize (fun _ => none) 0 staleCache ≠ Except.ok (p, st2)) ∧
    StoreErr.notFound ≠ StoreErr.transportFailure :=
  materialize_absent_not_found (fun _ => none) 0 staleCache rfl

/-- Claim C7: on an open write-mode streaming session that has already
written k bytes, seeking to any offset strictly less than k fails with
UnsupportedOperation, and the session — its buffered data, recorded parts
and logical position — is returned unchanged by the failed call. -/
theorem backward_seek_rejected (chunk target : Nat) (pieces : List Bytes)
    (h : target < pieces.flatten.length) :
    StreamingWriter.seek (writeAll chunk pieces) target =
      (Except.error StoreErr.unsupportedOperation, writeAll chunk pieces) := by
  have hpos := writeAll_pos chunk pieces
  rw [StreamingWriter.seek,
    if_neg (show ¬ target = (writeAll chunk pieces).pos by rw [hpos]; omega)]

theorem backward_seek_rejected_witness :
    5 < ([[1, 2, 3, 4, 5, 6, 7, 8, 9, 10]] : List Bytes).flatten.length ∧
      StreamingWriter.seek (writeAll 4 [[1, 2, 3, 4, 5, 6, 7, 8, 9, 10]]) 5 =
        (Except.error StoreErr.unsupportedOperation,
          writeAll 4 [[1, 2, 3, 4, 5, 6, 7, 8, 9, 10]]) :=
  ⟨by decide,
    backward_seek_rejected 4 5 [[1, 2, 3, 4, 5, 6, 7, 8, 9, 10]] (by decide)⟩

/-- Claim C8: opening a key for write and closing with no intervening
modification of the local file issues zero upload calls — the local file
mtime still equals the mtime recorded at open time, so `upload_if_changed`
skips the upload — while the caller-supplied force flag makes the close
upload unconditionally. -/
theorem no_op_close_skips_upload (key : Nat) (st st1 : ProcState)
    (sess : WriteSession)
    (h : open_for_write key st = (Except.ok sess, st1)) :
    (close_writer sess false st1).uploadCalls = st.uploadCalls ∧
    (close_writer sess true st1).uploadCalls = st.uploadCalls + 1 := by
  rw [open_for_write] at h
  by_cases hmem : key ∈ st.openWriters
  · rw [if_pos hmem] at h
    simp at h
  · rw [if_neg hmem] at h
    injection h with h1 h2
    injection h1 with h1
    subst h2
    subst h1
    constructor <;> simp [close_writer, upload_if_changed]

theorem no_op_close_skips_upload_witness :
    (close_writer ⟨0, 1⟩ false ((open_for_write 0 initProc).snd)).uploadCalls =
        initProc.uploadCalls ∧
      (close_writer ⟨0, 1⟩ true
          ((open_for_write 0 initProc).snd)).uploadCalls =
        initProc.uploadCalls + 1 :=
  no_op_close_skips_upload 0 initProc ((open_for_write 0 initProc).snd)
    ⟨0, 1⟩ rfl

/-- Claim C9: on a streaming-mode text handle, any request for a local
filesystem path fails with the distinct UnsupportedOperation condition and
never returns any path, empty or otherwise. -/
theorem streaming_text_fspath_unsupported (t : StreamingText) :
    OpenHandle.fspath (OpenHandle.streamingText t) =
      Except.error StoreErr.unsupportedOperation ∧
    (∀ p, OpenHandle.fspath (OpenHandle.streamingText t) ≠ Except.ok p) := by
  refine ⟨rfl, fun p hp => ?_⟩
  exact Except.noConfusion hp

/-- Claim C10: streaming handles report `seekable()` as True — write-mode
handles included, although a backward seek on them fails with
UnsupportedOperation — so `seekable()` cannot be used to predict whether a
given seek on a write-mode stream will succeed. -/
theorem seekable_true_on_write_handles (chunk target : Nat)
    (pieces : List Bytes) (h : target < pieces.flatten.length) :
    OpenHandle.seekable
        (OpenHandle.streamingBinaryWriter (writeAll chunk pieces)) = true ∧
    OpenHandle.writable
        (OpenHandle.streamingBinaryWriter (writeAll chunk pieces)) = true ∧
    (StreamingWriter.seek (writeAll chunk pieces) target).fst =
      Except.error StoreErr.unsupportedOperation := by
  refine ⟨rfl, rfl, ?_⟩
  have hpos := writeAll_pos chunk pieces
  rw [StreamingWriter.seek,
    if_neg (show ¬ target = (writeAll chunk pieces).pos by rw [hpos]; omega)]

theorem seekable_true_on_write_handles_witness :
    1 < ([[9, 9, 9]] : List Bytes).flatten.length ∧
      (OpenHandle.seekable
          (OpenHandle.streamingBinaryWriter (writeAll 4 [[9, 9, 9]])) = true ∧
        OpenHandle.writable
          (OpenHandle.streamingBinaryWriter (writeAll 4 [[9, 9, 9]])) = true ∧
        (StreamingWriter.seek (writeAll 4 [[9, 9, 9]]) 1).fst =
          Except.error StoreErr.unsupportedOperation) :=
  ⟨by decide, seekable_true_on_write_handles 4 1 [[9, 9, 9]] (by decide)⟩

end Cloudpathlib
